import Mathlib

/-!
Shallow embedding of the classification-and-transfer pipeline of
`src/image_sorter.py` (class `ImageSorter`), together with theorems checking
the natural-language specification against it.

Modelling conventions:
* Python integers are unbounded, so pixel dimensions, DPI values, years and
  the configured thresholds are embedded as `Int`.
* Python truthiness tests on numbers (`dpi and ...`) are embedded as `≠ 0`.
* The aspect ratio `width / height` (Python true division) is embedded as
  exact division in `ℚ`; the `ZeroDivisionError` raised when `height == 0`
  is embedded as an `Option` result.
* Filesystem paths are strings; `os.path.join(a, b)` on an absolute `a` and
  a separator-free `b` is embedded as `a ++ "/" ++ b`, matching the
  f-string concatenation used elsewhere in the source.
* Exceptions raised while opening/reading an image are embedded by giving
  `determine_destination_path` an `Except` argument describing the outcome
  of the metadata read.
-/

namespace ImageSorter

/-- Configuration values loaded in `ImageSorter.__init__` from
`config/config.json` (thresholds, folder names and flags), restricted to the
fields the classification pipeline reads. -/
structure Config where
  large_pixel_threshold : Int
  xl_pixel_threshold : Int
  quality_dpi_threshold : Int
  min_modification_year : Int
  destination_directory : String
  folder_small : String
  folder_large : String
  folder_xlarge : String
  folder_standard : String
  folder_best_quality : String
  folder_errors : String
  keep_directory_structure : Bool
  sort_with_image_shape : Bool

/-- Embedding of `ImageSorter.determine_size_folder` (src/image_sorter.py,
lines 197-224).  The best-quality branch mirrors the Python condition
`dpi and dpi >= self.quality_dpi_threshold and mod_year and
mod_year >= self.min_modification_year`: the bare `dpi` and `mod_year`
conjuncts are Python truthiness tests, embedded as `≠ 0`. -/
def determine_size_folder (cfg : Config) (base_folder : String)
    (width height dpi mod_year : Int) : String :=
  if width < cfg.large_pixel_threshold ∧ height < cfg.large_pixel_threshold then
    base_folder ++ "/" ++ cfg.folder_small
  else if width > cfg.xl_pixel_threshold ∧ height > cfg.xl_pixel_threshold ∧
      (dpi ≠ 0 ∧ dpi ≥ cfg.quality_dpi_threshold ∧
        mod_year ≠ 0 ∧ mod_year ≥ cfg.min_modification_year) then
    base_folder ++ "/" ++ cfg.folder_best_quality
  else if width > cfg.xl_pixel_threshold ∧ height > cfg.xl_pixel_threshold then
    base_folder ++ "/" ++ cfg.folder_xlarge
  else if width > cfg.large_pixel_threshold ∧ height > cfg.large_pixel_threshold then
    base_folder ++ "/" ++ cfg.folder_large
  else
    base_folder ++ "/" ++ cfg.folder_standard

/-- Spec-side definition (for the refinement claims): the ordered size-tier
rules exactly as the specification words them, with the DPI and year compared
directly against their thresholds and no truthiness guard. -/
def size_rules_spec (cfg : Config) (width height dpi mod_year : Int) : String :=
  if width < cfg.large_pixel_threshold ∧ height < cfg.large_pixel_threshold then
    cfg.folder_small
  else if width > cfg.xl_pixel_threshold ∧ height > cfg.xl_pixel_threshold ∧
      dpi ≥ cfg.quality_dpi_threshold ∧ mod_year ≥ cfg.min_modification_year then
    cfg.folder_best_quality
  else if width > cfg.xl_pixel_threshold ∧ height > cfg.xl_pixel_threshold then
    cfg.folder_xlarge
  else if width > cfg.large_pixel_threshold ∧ height > cfg.large_pixel_threshold then
    cfg.folder_large
  else
    cfg.folder_standard

/-- The predefined aspect-ratio ranges of `ImageSorter.get_shape_label`
(src/image_sorter.py, lines 230-234), in the dictionary's insertion order,
which is the iteration order of the Python loop. -/
def aspect_ratio_ranges : List ((ℚ × ℚ) × String) :=
  [((0.9, 1.1), "square"), ((1.1, 2), "landscape"), ((0.5, 0.9), "portrait")]

/-- Embedding of the static method `ImageSorter.get_shape_label`
(src/image_sorter.py, lines 226-246).  `width / height` is Python true
division of the two integers, embedded as exact division in `ℚ`; the
`ZeroDivisionError` raised when `height = 0` is embedded as `none`.  The
fall-through return value in the source is the capitalized string
`"Banner"`. -/
def get_shape_label (width height : Int) : Option String :=
  if height = 0 then
    none
  else
    let aspect_ratio : ℚ := (width : ℚ) / (height : ℚ)
    match aspect_ratio_ranges.find?
        (fun r => decide (r.1.1 ≤ aspect_ratio) && decide (aspect_ratio ≤ r.1.2)) with
    | some r => some r.2
    | none => some "Banner"

/-- Metadata `determine_destination_path` reads from an opened image:
`im.info.get("dpi", (0, 0))` (absent when the file carries no DPI entry),
the pixel size `im.size`, and the modification year derived from
`os.path.getmtime`. -/
structure ImgMeta where
  dpi_info : Option (Int × Int)
  width : Int
  height : Int
  mod_year : Int

/-- Embedding of `ImageSorter.determine_destination_path` (src/image_sorter.py,
lines 150-195).  The `opened` argument is the outcome of `Image.open` plus the
metadata reads: `Except.error` covers `UnidentifiedImageError`,
`PermissionError`, `FileNotFoundError` and any other exception raised while
opening or reading the image.  The result pairs the returned folder with the
number of times `self.error_count` is incremented by the call.  A
`ZeroDivisionError` from `get_shape_label` (height 0) is caught by the
final `except Exception` handler, so it also routes to the errors folder. -/
def determine_destination_path (cfg : Config) (baseDestinationFolder : Option String)
    (opened : Except String ImgMeta) : String × Nat :=
  let base := baseDestinationFolder.getD cfg.destination_directory
  match opened with
  | Except.error _ =>
      (cfg.destination_directory ++ "/" ++ cfg.folder_errors, 1)
  | Except.ok im =>
      let dpi := (im.dpi_info.getD (0, 0)).1
      let folder := determine_size_folder cfg base im.width im.height dpi im.mod_year
      if cfg.sort_with_image_shape then
        match get_shape_label im.width im.height with
        | none => (cfg.destination_directory ++ "/" ++ cfg.folder_errors, 1)
        | some lbl => (folder ++ "/" ++ lbl, 0)
      else
        (folder, 0)

/-- The default configuration assembled by `ImageSorter.__init__` when the
config file supplies no overrides: thresholds 1000/2000, DPI threshold 300,
minimum year 2016, the six default folder names, structure preservation off
and shape sorting on. -/
def defaultConfig : Config :=
  ⟨1000, 2000, 300, 2016, "Sorted Images",
    "Small", "Large", "XLarge", "Standard", "Best Quality", "Errors",
    false, true⟩

/-- A configuration identical to the default except that
`quality_dpi_threshold` is 0, as the config file may specify. -/
def cfgZeroQ : Config :=
  ⟨1000, 2000, 0, 2016, "D",
    "Small", "Large", "XLarge", "Standard", "Best Quality", "Errors",
    false, true⟩

/-- C1: for every width, height, dpi and modification year,
`determine_size_folder` appends exactly one tier segment chosen by the
ordered rules of the spec (small / best_quality / xlarge / large / standard),
and width = height = large_pixel_threshold falls into "standard".  The
configured thresholds are positive (the DPI and year truthiness guards in the
source are then implied by the comparisons) and the large threshold does not
exceed the extra-large one. -/
theorem C1_size_tier_classification (cfg : Config) (base : String)
    (width height dpi mod_year : Int)
    (hq : 0 < cfg.quality_dpi_threshold)
    (hy : 0 < cfg.min_modification_year)
    (hord : cfg.large_pixel_threshold ≤ cfg.xl_pixel_threshold) :
    determine_size_folder cfg base width height dpi mod_year =
      base ++ "/" ++ size_rules_spec cfg width height dpi mod_year ∧
    (width = cfg.large_pixel_threshold → height = cfg.large_pixel_threshold →
      determine_size_folder cfg base width height dpi mod_year =
        base ++ "/" ++ cfg.folder_standard) := by
  unfold determine_size_folder size_rules_spec
  constructor
  · split_ifs <;> first | rfl | omega
  · intro hw hh
    subst hw hh
    split_ifs <;> first | rfl | omega

/-- Witness for C1 at the default configuration, at the exact large-threshold
boundary 1000 × 1000. -/
theorem C1_size_tier_classification_witness :
    (0 : Int) < defaultConfig.quality_dpi_threshold ∧
    (0 : Int) < defaultConfig.min_modification_year ∧
    defaultConfig.large_pixel_threshold ≤ defaultConfig.xl_pixel_threshold ∧
    determine_size_folder defaultConfig "D" 1000 1000 72 2020 =
      "D" ++ "/" ++ size_rules_spec defaultConfig 1000 1000 72 2020 ∧
    determine_size_folder defaultConfig "D" 1000 1000 72 2020 =
      "D" ++ "/" ++ defaultConfig.folder_standard :=
  ⟨by decide, by decide, by decide,
    (C1_size_tier_classification defaultConfig "D" 1000 1000 72 2020
      (by decide) (by decide) (by decide)).1,
    (C1_size_tier_classification defaultConfig "D" 1000 1000 72 2020
      (by decide) (by decide) (by decide)).2 rfl rfl⟩

/-- Counterexample to C2 as stated: with `quality_dpi_threshold = 0`, a
2001 × 2001 image with DPI 0 ≥ 0 and year 2020 ≥ 2016 satisfies every
inequality of the claim, yet the source's truthiness guard (`dpi and ...`)
sends it to plain "xlarge", not "best_quality". -/
theorem C2_best_quality_counterexample :
    (2001 : Int) > cfgZeroQ.xl_pixel_threshold ∧
    (0 : Int) ≥ cfgZeroQ.quality_dpi_threshold ∧
    (2020 : Int) ≥ cfgZeroQ.min_modification_year ∧
    determine_size_folder cfgZeroQ "D" 2001 2001 0 2020 =
      "D" ++ "/" ++ cfgZeroQ.folder_xlarge ∧
    determine_size_folder cfgZeroQ "D" 2001 2001 0 2020 ≠
      "D" ++ "/" ++ cfgZeroQ.folder_best_quality := by
  decide

/-- C2 (amended): for every image with both dimensions strictly greater than
the extra-large threshold, nonzero DPI at least the quality threshold and
nonzero year at least the minimum year, `determine_size_folder` selects
"best_quality", never plain "xlarge".  DPI = 0 (and year = 0) fail the
source's truthiness guard and fall to "xlarge" even when the corresponding
threshold is ≤ 0, so the zero values are excluded. -/
theorem C2_best_quality_amended (cfg : Config) (base : String)
    (width height dpi mod_year : Int)
    (hord : cfg.large_pixel_threshold ≤ cfg.xl_pixel_threshold)
    (hw : width > cfg.xl_pixel_threshold) (hh : height > cfg.xl_pixel_threshold)
    (hdpi0 : dpi ≠ 0) (hdpi : dpi ≥ cfg.quality_dpi_threshold)
    (hy0 : mod_year ≠ 0) (hy : mod_year ≥ cfg.min_modification_year) :
    determine_size_folder cfg base width height dpi mod_year =
      base ++ "/" ++ cfg.folder_best_quality := by
  unfold determine_size_folder
  split_ifs <;> first | rfl | omega

/-- Witness for the amended C2 at the default configuration. -/
theorem C2_best_quality_amended_witness :
    determine_size_folder defaultConfig "D" 2500 2500 350 2020 =
      "D" ++ "/" ++ defaultConfig.folder_best_quality :=
  C2_best_quality_amended defaultConfig "D" 2500 2500 350 2020
    (by decide) (by decide) (by decide) (by decide) (by decide)
    (by decide) (by decide)

/-- Counterexample to C3 as stated: a 3 × 1 image has aspect ratio 3 > 2,
and the source's fall-through branch returns the capitalized string
"Banner", not the claimed lowercase "banner". -/
theorem C3_shape_label_counterexample :
    ((3 : ℚ) / (1 : ℚ)) > 2 ∧
    get_shape_label 3 1 = some "Banner" ∧
    get_shape_label 3 1 ≠ some "banner" := by
  refine ⟨by norm_num, ?_, ?_⟩
  · norm_num [get_shape_label, aspect_ratio_ranges, List.find?]
  · norm_num [get_shape_label, aspect_ratio_ranges, List.find?]
    decide

/-- C3 (amended): for every width and nonzero height with aspect ratio
r = width / height, `get_shape_label` returns "square" when 0.9 ≤ r ≤ 1.1,
"landscape" when 1.1 < r ≤ 2.0, "portrait" when 0.5 ≤ r < 0.9, and otherwise
(r > 2.0 or r < 0.5) returns the capitalized "Banner" (the source
capitalizes only this label). -/
theorem C3_shape_label_amended (width height : Int) (hh : height ≠ 0) :
    ((0.9 ≤ ((width : ℚ) / (height : ℚ)) ∧ ((width : ℚ) / (height : ℚ)) ≤ 1.1) →
      get_shape_label width height = some "square") ∧
    ((1.1 < ((width : ℚ) / (height : ℚ)) ∧ ((width : ℚ) / (height : ℚ)) ≤ 2) →
      get_shape_label width height = some "landscape") ∧
    ((0.5 ≤ ((width : ℚ) / (height : ℚ)) ∧ ((width : ℚ) / (height : ℚ)) < 0.9) →
      get_shape_label width height = some "portrait") ∧
    ((((width : ℚ) / (height : ℚ)) > 2 ∨ ((width : ℚ) / (height : ℚ)) < 0.5) →
      get_shape_label width height = some "Banner") := by
  simp only [get_shape_label, hh, if_false, aspect_ratio_ranges, if_neg]
  set r : ℚ := (width : ℚ) / (height : ℚ) with hr
  refine ⟨fun h => ?_, fun h => ?_, fun h => ?_, fun h => ?_⟩
  · rw [List.find?_cons_of_pos _ (by simp [h.1, h.2])]
  · rw [List.find?_cons_of_neg _ (by simp; intro _; linarith [h.1]),
      List.find?_cons_of_pos _ (by simp [h.2]; linarith [h.1])]
  · rw [List.find?_cons_of_neg _ (by simp; intro _; linarith [h.2]),
      List.find?_cons_of_neg _ (by simp; intro hc; linarith [h.2]),
      List.find?_cons_of_pos _ (by simp [h.1]; linarith [h.2])]
  · rcases h with h | h
    · rw [List.find?_cons_of_neg _ (by simp; intro _; linarith),
        List.find?_cons_of_neg _ (by simp; intro _; linarith),
        List.find?_cons_of_neg _ (by simp; intro _; linarith)]
      rfl
    · rw [List.find?_cons_of_neg _ (by simp; intro hc; linarith),
        List.find?_cons_of_neg _ (by simp; intro hc; linarith),
        List.find?_cons_of_neg _ (by simp; intro hc; linarith)]
      rfl

/-- Witness for the amended C3: a 3 × 2 image (ratio 1.5) is labeled
"landscape". -/
theorem C3_shape_label_amended_witness :
    (2 : Int) ≠ 0 ∧ get_shape_label 3 2 = some "landscape" :=
  ⟨by decide,
    (C3_shape_label_amended 3 2 (by decide)).2.1 (by norm_num)⟩

/-- C4: classification is total and error-redirecting.  Every call to
`determine_destination_path` returns exactly one folder; it either leaves the
error counter unchanged, or increments it exactly once while returning the
single shared errors folder directly under the destination root.  Any
metadata-read failure, and the division by zero arising when height = 0
during shape labeling, lands in that errors folder with the counter
incremented by one — no exception escapes. -/
theorem C4_total_error_redirect (cfg : Config) (baseDest : Option String)
    (opened : Except String ImgMeta) :
    ((determine_destination_path cfg baseDest opened).2 = 0 ∨
      determine_destination_path cfg baseDest opened =
        (cfg.destination_directory ++ "/" ++ cfg.folder_errors, 1)) ∧
    (∀ e, opened = Except.error e →
      determine_destination_path cfg baseDest opened =
        (cfg.destination_directory ++ "/" ++ cfg.folder_errors, 1)) ∧
    (∀ im, opened = Except.ok im → im.height = 0 →
      cfg.sort_with_image_shape = true →
      determine_destination_path cfg baseDest opened =
        (cfg.destination_directory ++ "/" ++ cfg.folder_errors, 1)) := by
  refine ⟨?_, ?_, ?_⟩
  · cases opened with
    | error e => exact Or.inr rfl
    | ok im =>
      simp only [determine_destination_path]
      cases hs : cfg.sort_with_image_shape with
      | false => simp
      | true =>
        simp only [if_true]
        cases hl : get_shape_label im.width im.height with
        | none => simp
        | some lbl => simp
  · intro e he
    subst he
    rfl
  · intro im him h0 hs
    subst him
    simp only [determine_destination_path, hs, if_true]
    have : get_shape_label im.width im.height = none := by
      simp [get_shape_label, h0]
    simp [this]

/-- Witness for C4: a failed metadata read under the default configuration is
routed to the errors folder under the destination root, and a 100 × 0 image
(height zero, shape sorting on) likewise. -/
theorem C4_total_error_redirect_witness :
    determine_destination_path defaultConfig none (Except.error "bad header") =
      (defaultConfig.destination_directory ++ "/" ++ defaultConfig.folder_errors, 1) ∧
    determine_destination_path defaultConfig none (Except.ok ⟨none, 100, 0, 2020⟩) =
      (defaultConfig.destination_directory ++ "/" ++ defaultConfig.folder_errors, 1) :=
  ⟨(C4_total_error_redirect defaultConfig none (Except.error "bad header")).2.1
      "bad header" rfl,
    (C4_total_error_redirect defaultConfig none
        (Except.ok ⟨none, 100, 0, 2020⟩)).2.2 ⟨none, 100, 0, 2020⟩ rfl rfl rfl⟩

/-- C10: classification reads only the horizontal DPI component.  Two images
identical in dimensions, modification year and the first element of the DPI
pair, but differing in the vertical component, get the same destination and
the same error count; and an image with no DPI metadata classifies exactly as
one whose DPI pair is the default (0, 0). -/
theorem C10_vertical_dpi_irrelevant (cfg : Config) (baseDest : Option String)
    (w h year d0 d1 d1' : Int) :
    determine_destination_path cfg baseDest (Except.ok ⟨some (d0, d1), w, h, year⟩) =
      determine_destination_path cfg baseDest (Except.ok ⟨some (d0, d1'), w, h, year⟩) ∧
    determine_destination_path cfg baseDest (Except.ok ⟨none, w, h, year⟩) =
      determine_destination_path cfg baseDest (Except.ok ⟨some (0, 0), w, h, year⟩) :=
  ⟨rfl, rfl⟩

/-- Filesystem outcomes seen by one `ImageSorter.copy_file` call
(src/image_sorter.py, lines 266-326): whether `os.path.isfile(image_path)`
holds, whether `os.path.isdir(destination_folder)` holds, whether
`os.makedirs` succeeds when attempted, and for each retry attempt `i`
whether `shutil.copy2` succeeds on that attempt. -/
structure CopyEnv where
  source_is_file : Bool
  dest_is_dir : Bool
  mkdir_ok : Bool
  copy_ok : Nat → Bool

/-- Observable outcome of one `copy_file` call: the returned Boolean, the
increments applied to `self.processed_count` and `self.error_count`, and the
list of backoff delays passed to `time.sleep`, in order. -/
structure CopyResult where
  ok : Bool
  processed : Nat
  errors : Nat
  sleeps : List Nat
deriving DecidableEq

/-- Embedding of the retry loop of `copy_file` (`while attempt < retries`):
on a failed attempt the error counter is incremented, the current delay is
slept, and the delay doubles, capped at `max_delay = 16`.  The fuel argument
is `retries - attempt`, so the loop body runs at most `retries = 5` times. -/
def copy_loop (copy_ok : Nat → Bool) (attempt delay : Nat) : Nat → CopyResult
  | 0 => ⟨false, 0, 0, []⟩
  | remaining + 1 =>
    if copy_ok attempt then ⟨true, 1, 0, []⟩
    else
      let r := copy_loop copy_ok (attempt + 1) (min 16 (delay * 2)) remaining
      ⟨r.ok, r.processed, r.errors + 1, delay :: r.sleeps⟩

/-- Embedding of `ImageSorter.copy_file` (src/image_sorter.py, lines
266-326).  A missing source returns failure at once without touching either
counter; a needed but failed `os.makedirs` increments the error counter once
and returns failure with no retry; otherwise the retry loop runs with
`attempt = 0`, `delay = 1` and `retries = 5`.  (The collision-safe renaming
between these steps is modeled separately by `get_unique_filename`; it does
not touch the counters.) -/
def copy_file (env : CopyEnv) : CopyResult :=
  if ¬ env.source_is_file then ⟨false, 0, 0, []⟩
  else if ¬ env.dest_is_dir ∧ ¬ env.mkdir_ok then ⟨false, 0, 1, []⟩
  else copy_loop env.copy_ok 0 1 5

/-- C5: `copy_file` attempts the copy at most 5 times; the backoff delays
slept are an initial segment of 1, 2, 4, 8, 16 (starting at 1, doubling,
capped at 16); every failed attempt sleeps exactly once and increments the
error counter exactly once (so errors = number of sleeps); and a copy
failing on the first 4 attempts and succeeding on the 5th returns success
with the processed counter incremented once and the error counter
incremented exactly 4 times. -/
theorem C5_retry_policy :
    (∀ (env : CopyEnv), env.source_is_file = true →
      (env.dest_is_dir = true ∨ env.mkdir_ok = true) →
      (copy_file env).errors = (copy_file env).sleeps.length ∧
      (copy_file env).sleeps = List.take (copy_file env).sleeps.length [1, 2, 4, 8, 16] ∧
      (copy_file env).sleeps.length ≤ 5 ∧
      ((copy_file env).ok = true → (copy_file env).errors ≤ 4)) ∧
    (∀ (d m : Bool), (d = true ∨ m = true) →
      copy_file ⟨true, d, m, fun i => decide (i = 4)⟩ = ⟨true, 1, 4, [1, 2, 4, 8]⟩) := by
  have key : ∀ (f : Nat → Bool),
      (copy_loop f 0 1 5).errors = (copy_loop f 0 1 5).sleeps.length ∧
      (copy_loop f 0 1 5).sleeps =
        List.take (copy_loop f 0 1 5).sleeps.length [1, 2, 4, 8, 16] ∧
      (copy_loop f 0 1 5).sleeps.length ≤ 5 ∧
      ((copy_loop f 0 1 5).ok = true → (copy_loop f 0 1 5).errors ≤ 4) := by
    intro f
    cases h0 : f 0 <;> cases h1 : f 1 <;> cases h2 : f 2 <;>
      cases h3 : f 3 <;> cases h4 : f 4 <;>
      simp [copy_loop, h0, h1, h2, h3, h4]
  have hred : ∀ (env : CopyEnv), env.source_is_file = true →
      (env.dest_is_dir = true ∨ env.mkdir_ok = true) →
      copy_file env = copy_loop env.copy_ok 0 1 5 := by
    intro env hs hdm
    have hcond : ¬ (¬ env.dest_is_dir ∧ ¬ env.mkdir_ok) := by
      rcases hdm with h | h <;> simp [h]
    unfold copy_file
    rw [if_neg (by simp [hs]), if_neg hcond]
  constructor
  · intro env hs hdm
    rw [hred env hs hdm]
    exact key env.copy_ok
  · intro d m hdm
    rw [hred ⟨true, d, m, fun i => decide (i = 4)⟩ rfl (by simpa using hdm)]
    simp [copy_loop]

/-- Witness for C5: with an always-failing copy the five delays 1, 2, 4, 8,
16 are slept and five errors are counted; and the fail-4-succeed-on-5th
scenario yields success with one processed item and four errors. -/
theorem C5_retry_policy_witness :
    (copy_file ⟨true, true, true, fun _ => false⟩).errors =
      (copy_file ⟨true, true, true, fun _ => false⟩).sleeps.length ∧
    copy_file ⟨true, true, true, fun i => decide (i = 4)⟩ = ⟨true, 1, 4, [1, 2, 4, 8]⟩ :=
  ⟨(C5_retry_policy.1 ⟨true, true, true, fun _ => false⟩ rfl (Or.inl rfl)).1,
    C5_retry_policy.2 true true (Or.inl rfl)⟩

/-- C8: a destination-folder creation failure is terminal for the item —
when the folder does not exist and `os.makedirs` fails, `copy_file`
increments the error counter exactly once, returns failure immediately, and
performs no retry and no backoff sleep, whatever the copy outcomes would
have been.  In contrast a first-attempt copy failure is retried: it sleeps
once and can still succeed. -/
theorem C8_mkdir_failure_terminal (f : Nat → Bool) :
    copy_file ⟨true, false, false, f⟩ = ⟨false, 0, 1, []⟩ ∧
    copy_file ⟨true, true, true, fun i => decide (0 < i)⟩ = ⟨true, 1, 1, [1]⟩ := by
  constructor
  · simp [copy_file]
  · simp [copy_file, copy_loop]

/-- C9: when the source path is not an existing regular file, `copy_file`
returns failure immediately with no retry attempt and no sleep, and leaves
both counters unchanged — in particular the missing-source failure is not
counted in the error counter. -/
theorem C9_missing_source_uncounted (f : Nat → Bool) (d m : Bool) :
    copy_file ⟨false, d, m, f⟩ = ⟨false, 0, 0, []⟩ := by
  simp [copy_file]

/-- Decimal digit list (most significant first) of a natural number,
modelling the decimal rendering of `counter` inside the Python f-string
`f"{base} ({counter}){extension}"`.  The fuel argument makes the recursion
structural; `natStr` supplies enough fuel for any input. -/
def natStrGo : Nat → Nat → List Char
  | 0, _ => []
  | f + 1, n =>
    if n < 10 then [Nat.digitChar n]
    else natStrGo f (n / 10) ++ [Nat.digitChar (n % 10)]

/-- Decimal string of a natural number (the rendering of `counter` in the
source's f-string). -/
def natStr (n : Nat) : String := ⟨natStrGo (n + 1) n⟩

lemma lt_pow_self_ten (n : Nat) : n < 10 ^ n :=
  Nat.lt_of_lt_of_le (Nat.lt_two_pow n) (Nat.pow_le_pow_left (by norm_num) n)

lemma lt_ten_pow (n : Nat) : n < 10 ^ (n + 1) :=
  Nat.lt_of_lt_of_le (lt_pow_self_ten n)
    (Nat.pow_le_pow_right (by norm_num) (by omega))

lemma natStrGo_fuel : ∀ f : Nat, ∀ g n : Nat, n < 10 ^ f → n < 10 ^ g →
    1 ≤ f → 1 ≤ g → natStrGo f n = natStrGo g n := by
  intro f
  induction f with
  | zero => intro g n _ _ hf _; omega
  | succ f ih =>
    intro g n hnf hng _ hg1
    obtain ⟨g, rfl⟩ : ∃ gp, g = gp + 1 := ⟨g - 1, by omega⟩
    by_cases h10 : n < 10
    · simp [natStrGo, h10]
    · have hf1 : 1 ≤ f := by
        rcases Nat.eq_zero_or_pos f with hf0 | hf0
        · subst hf0; simp at hnf; omega
        · exact hf0
      have hg1' : 1 ≤ g := by
        rcases Nat.eq_zero_or_pos g with hg0 | hg0
        · subst hg0; simp at hng; omega
        · exact hg0
      have hdf : n / 10 < 10 ^ f := by
        have h1 : n < 10 ^ f * 10 := by have := Nat.pow_succ 10 f; omega
        omega
      have hdg : n / 10 < 10 ^ g := by
        have h1 : n < 10 ^ g * 10 := by have := Nat.pow_succ 10 g; omega
        omega
      simp only [natStrGo, h10, if_false]
      rw [ih g (n / 10) hdf hdg hf1 hg1']

lemma natStr_data_lt (n : Nat) (h : n < 10) : (natStr n).data = [Nat.digitChar n] := by
  simp [natStr, natStrGo, h]

lemma natStr_data_ge (n : Nat) (h : 10 ≤ n) :
    (natStr n).data = (natStr (n / 10)).data ++ [Nat.digitChar (n % 10)] := by
  have h1 : (natStr n).data = natStrGo (n + 1) n := rfl
  have h2 : (natStr (n / 10)).data = natStrGo (n / 10 + 1) (n / 10) := rfl
  rw [h1, h2]
  have hstep : natStrGo (n + 1) n = natStrGo n (n / 10) ++ [Nat.digitChar (n % 10)] := by
    simp [natStrGo, Nat.not_lt.mpr h]
  rw [hstep]
  congr 1
  apply natStrGo_fuel
  · exact Nat.lt_of_lt_of_le
      (Nat.lt_of_lt_of_le (Nat.div_lt_self (by omega) (by norm_num))
        (Nat.le_of_lt (lt_pow_self_ten n))) (le_refl _)
  · exact lt_ten_pow (n / 10)
  · omega
  · omega

lemma natStr_data_ne_nil (n : Nat) : (natStr n).data ≠ [] := by
  by_cases h : n < 10
  · rw [natStr_data_lt n h]; simp
  · rw [natStr_data_ge n (by omega)]; simp

lemma digitChar_inj : ∀ a < 10, ∀ b < 10,
    Nat.digitChar a = Nat.digitChar b → a = b := by decide

lemma natStr_inj : ∀ m n : Nat, natStr m = natStr n → m = n := by
  intro m
  induction m using Nat.strong_induction_on with
  | _ m ih =>
    intro n h
    have hd : (natStr m).data = (natStr n).data := congrArg String.data h
    by_cases hm : m < 10 <;> by_cases hn : n < 10
    · rw [natStr_data_lt m hm, natStr_data_lt n hn] at hd
      injection hd with h1 _
      exact digitChar_inj m hm n hn h1
    · rw [natStr_data_lt m hm, natStr_data_ge n (by omega)] at hd
      have hlen := congrArg List.length hd
      simp only [List.length_cons, List.length_append, List.length_nil] at hlen
      have : (natStr (n / 10)).data = [] := List.length_eq_zero.mp (by omega)
      exact absurd this (natStr_data_ne_nil _)
    · rw [natStr_data_ge m (by omega), natStr_data_lt n hn] at hd
      have hlen := congrArg List.length hd
      simp only [List.length_cons, List.length_append, List.length_nil] at hlen
      have : (natStr (m / 10)).data = [] := List.length_eq_zero.mp (by omega)
      exact absurd this (natStr_data_ne_nil _)
    · rw [natStr_data_ge m (by omega), natStr_data_ge n (by omega)] at hd
      have hlen := congrArg List.length hd
      simp only [List.length_append, List.length_cons, List.length_nil] at hlen
      obtain ⟨h1, h2⟩ := List.append_inj hd (by omega)
      injection h2 with hc _
      have hmod : m % 10 = n % 10 :=
        digitChar_inj (m % 10) (Nat.mod_lt _ (by norm_num)) (n % 10)
          (Nat.mod_lt _ (by norm_num)) hc
      have hdiv : m / 10 = n / 10 :=
        ih (m / 10) (Nat.div_lt_self (by omega) (by norm_num)) (n / 10) (String.ext h1)
      omega

/-- The collision name `f"{base} ({counter}){extension}"` built by
`get_unique_filename` for a given counter value. -/
def candidate_name (base ext : String) (counter : Nat) : String :=
  base ++ " (" ++ natStr counter ++ ")" ++ ext

/-- Embedding of the `while os.path.exists(...)` loop of
`ImageSorter.get_unique_filename` (src/image_sorter.py, lines 252-264).
The folder's current contents stand in for `os.path.exists` checks, and the
fuel argument makes the recursion structural; `get_unique_filename` supplies
fuel `existing.length + 1`, which the theorems below show is enough for the
loop to reach its exit condition exactly as the unbounded Python loop
does. -/
def get_unique_filename_go (existing : List String) (base ext : String) :
    String → Nat → Nat → String
  | unique, _, 0 => unique
  | unique, counter, fuel + 1 =>
    if unique ∈ existing then
      get_unique_filename_go existing base ext
        (candidate_name base ext counter) (counter + 1) fuel
    else unique

/-- Embedding of the static method `ImageSorter.get_unique_filename`
(src/image_sorter.py, lines 252-264): `base` and `ext` are the two halves
of `os.path.splitext(filename)` (so the filename itself is `base ++ ext`),
and `existing` lists the filenames already present in the destination
folder. -/
def get_unique_filename (existing : List String) (base ext : String) : String :=
  get_unique_filename_go existing base ext (base ++ ext) 1 (existing.length + 1)

lemma candidate_name_inj (base ext : String) (i j : Nat)
    (h : candidate_name base ext i = candidate_name base ext j) : i = j := by
  unfold candidate_name at h
  have hd := congrArg String.data h
  simp only [String.data_append, List.append_assoc] at hd
  have h1 := List.append_cancel_left hd
  have h2 := List.append_cancel_left h1
  have hlen := congrArg List.length h2
  simp only [List.length_append] at hlen
  obtain ⟨h3, _⟩ := List.append_inj h2 (by omega)
  exact natStr_inj i j (String.ext h3)

lemma natStr_length_pos (n : Nat) : 0 < (natStr n).data.length := by
  cases hq : (natStr n).data with
  | nil => exact absurd hq (natStr_data_ne_nil n)
  | cons c l => simp

lemma filename_ne_candidate (base ext : String) (m : Nat) :
    base ++ ext ≠ candidate_name base ext m := by
  intro h
  have hd := congrArg String.data h
  have hlen := congrArg List.length hd
  unfold candidate_name at hlen
  simp only [String.data_append, List.length_append] at hlen
  have hp := natStr_length_pos m
  have h2 : (" (" : String).data.length = 2 := by decide
  have h3 : (")" : String).data.length = 1 := by decide
  omega

lemma go_not_mem (existing : List String) (base ext unique : String) (counter fuel : Nat)
    (h : unique ∉ existing) :
    get_unique_filename_go existing base ext unique counter fuel = unique := by
  cases fuel <;> simp [get_unique_filename_go, h]

lemma go_spec (existing : List String) (base ext : String) :
    ∀ (k counter fuel : Nat) (unique : String),
      unique ∈ existing →
      (∀ j, j < k → candidate_name base ext (counter + j) ∈ existing) →
      candidate_name base ext (counter + k) ∉ existing →
      k + 1 ≤ fuel →
      get_unique_filename_go existing base ext unique counter fuel =
        candidate_name base ext (counter + k) := by
  intro k
  induction k with
  | zero =>
    intro counter fuel unique hu hall hnot hf
    obtain ⟨f, rfl⟩ : ∃ fp, fuel = fp + 1 := ⟨fuel - 1, by omega⟩
    simp only [get_unique_filename_go, if_pos hu]
    exact go_not_mem existing base ext _ _ f (by simpa using hnot)
  | succ k ih =>
    intro counter fuel unique hu hall hnot hf
    obtain ⟨f, rfl⟩ : ∃ fp, fuel = fp + 1 := ⟨fuel - 1, by omega⟩
    simp only [get_unique_filename_go, if_pos hu]
    have hrec := ih (counter + 1) f (candidate_name base ext counter)
      (by simpa using hall 0 (by omega))
      (by
        intro j hj
        have := hall (j + 1) (by omega)
        simpa [Nat.add_assoc, Nat.add_comm, Nat.add_left_comm] using this)
      (by
        have heq : counter + 1 + k = counter + (k + 1) := by omega
        rw [heq]; exact hnot)
      (by omega)
    rw [hrec]
    congr 1
    omega

/-- C6: `get_unique_filename` returns the filename unchanged when no file of
that name exists in the folder; otherwise it returns the collision name
"base (n)extension" for the least counter n ≥ 1 whose name is not yet taken;
consequently a second copy of "name.ext" into a folder already holding it is
named "name (1).ext" and a third copy "name (2).ext". -/
theorem C6_unique_filename (existing : List String) (base ext : String) :
    (base ++ ext ∉ existing → get_unique_filename existing base ext = base ++ ext) ∧
    (∀ n : Nat, 1 ≤ n → base ++ ext ∈ existing →
      (∀ m, 1 ≤ m → m < n → candidate_name base ext m ∈ existing) →
      candidate_name base ext n ∉ existing →
      get_unique_filename existing base ext = candidate_name base ext n) ∧
    get_unique_filename ["name.ext"] "name" ".ext" = "name (1).ext" ∧
    get_unique_filename ["name.ext", "name (1).ext"] "name" ".ext" = "name (2).ext" := by
  refine ⟨?_, ?_, by decide, by decide⟩
  · intro h
    exact go_not_mem existing base ext _ 1 _ h
  · intro n hn hmem hall hnot
    have hinj : Function.Injective (fun j => candidate_name base ext (j + 1)) := by
      intro a b hab
      have := candidate_name_inj base ext (a + 1) (b + 1) hab
      omega
    have hnodup :
        ((base ++ ext) ::
          (List.range (n - 1)).map (fun j => candidate_name base ext (j + 1))).Nodup := by
      rw [List.nodup_cons]
      constructor
      · intro hmem'
        obtain ⟨j, _, heq⟩ := List.mem_map.mp hmem'
        exact filename_ne_candidate base ext (j + 1) heq.symm
      · exact (List.nodup_range _).map hinj
    have hsubset :
        ((base ++ ext) ::
          (List.range (n - 1)).map (fun j => candidate_name base ext (j + 1))) ⊆ existing := by
      intro x hx
      rcases List.mem_cons.mp hx with hx | hx
      · subst hx; exact hmem
      · obtain ⟨j, hj, rfl⟩ := List.mem_map.mp hx
        have hj' := List.mem_range.mp hj
        exact hall (j + 1) (by omega) (by omega)
    have hlen : n ≤ existing.length := by
      have hle := (hnodup.subperm hsubset).length_le
      simp only [List.length_cons, List.length_map, List.length_range] at hle
      omega
    have hspec := go_spec existing base ext (n - 1) 1 (existing.length + 1) (base ++ ext)
      hmem
      (by
        intro j hj
        have := hall (j + 1) (by omega) (by omega)
        simpa [Nat.add_comm] using this)
      (by
        have heq : 1 + (n - 1) = n := by omega
        rw [heq]; exact hnot)
      (by omega)
    rw [get_unique_filename, hspec]
    congr 1
    omega

/-- Witness for C6: in an empty folder the name is unchanged, and in a folder
already containing "name.ext" the least free counter is 1. -/
theorem C6_unique_filename_witness :
    get_unique_filename [] "name" ".ext" = "name" ++ ".ext" ∧
    get_unique_filename ["name.ext"] "name" ".ext" = candidate_name "name" ".ext" 1 :=
  ⟨(C6_unique_filename [] "name" ".ext").1 (by decide),
    (C6_unique_filename ["name.ext"] "name" ".ext").2.1 1 (by decide) (by decide)
      (by omega) (by decide)⟩

/-- One entry returned by the `os.scandir` iterator in
`ImageSorter.process_directory` (src/image_sorter.py, lines 83-114): the
absolute path `os.path.abspath(dir_item.path)` as a normalized component
list, the `is_dir()` and `is_file()` results, and the bare `name`.  The
operating system is an external collaborator, so entries (including ones a
symlink makes point elsewhere) are left arbitrary. -/
structure DirEntry where
  path : List String
  isDirE : Bool
  isFileE : Bool
  name : String

/-- Observable effects of one traversal: directories actually scanned, the
source paths of files passed to `process_image_file` (and thereby enqueued),
and the number of `self.error_count` increments. -/
structure ScanState where
  visited : List (List String)
  enqueued : List (List String)
  errors : Nat
deriving DecidableEq

def ScanState.empty : ScanState := ⟨[], [], 0⟩

def ScanState.merge (a b : ScanState) : ScanState :=
  ⟨a.visited ++ b.visited, a.enqueued ++ b.enqueued, a.errors + b.errors⟩

/-- Embedding of `ImageSorter.is_within_input_directory` (src/image_sorter.py,
lines 140-142): `os.path.commonpath([input, path]) == input` on two absolute
normalized paths holds exactly when the input root's components are a prefix
of the path's components. -/
def is_within_input_directory (input path : List String) : Bool :=
  input.isPrefixOf path

/-- Embedding of the static method `ImageSorter.is_supported_image`
(src/image_sorter.py, lines 144-148). -/
def is_supported_image (filename : String) : Bool :=
  [".jpg", ".jpeg", ".png", ".heic", ".webp"].any
    (fun ext => filename.toLower.endsWith ext)

mutual

/-- Embedding of `ImageSorter.process_directory` (src/image_sorter.py, lines
83-114).  `scandir` is the directory-listing oracle (`none` models the
exception branch, which increments the error counter and abandons the
directory); the fuel argument bounds the recursion depth, which in Python is
bounded by the interpreter's recursion limit. -/
def process_directory (scandir : List String → Option (List DirEntry))
    (input : List String) : Nat → List String → ScanState
  | 0, _ => ScanState.empty
  | fuel + 1, directory =>
    if is_within_input_directory input directory then
      match scandir directory with
      | none => ⟨[directory], [], 1⟩
      | some entries =>
          ScanState.merge ⟨[directory], [], 0⟩
            (process_entries scandir input fuel entries)
    else ScanState.empty
termination_by fuel _ => (fuel, 0)

/-- The entry loop `for dir_item in os.scandir(directory)` of
`process_directory`: an entry failing the containment check is logged and
skipped (`continue`); a directory entry recurses; a supported image file is
processed and enqueued. -/
def process_entries (scandir : List String → Option (List DirEntry))
    (input : List String) : Nat → List DirEntry → ScanState
  | _, [] => ScanState.empty
  | fuel, e :: rest =>
    if is_within_input_directory input e.path then
      if e.isDirE then
        ScanState.merge (process_directory scandir input fuel e.path)
          (process_entries scandir input fuel rest)
      else if e.isFileE && is_supported_image e.name then
        ScanState.merge ⟨[], [e.path], 0⟩ (process_entries scandir input fuel rest)
      else process_entries scandir input fuel rest
    else process_entries scandir input fuel rest
termination_by fuel entries => (fuel, entries.length + 1)

end

/-- C7: every path the scanner visits or enqueues lies within the configured
input root (in the source's lexical sense of `os.path.commonpath`, which is
what the containment check can see even for a crafted symlink), and an entry
that fails the containment check is skipped while traversal of the remaining
entries continues unchanged. -/
theorem C7_traversal_containment (scandir : List String → Option (List DirEntry))
    (input : List String) :
    (∀ (fuel : Nat) (directory p : List String),
      (p ∈ (process_directory scandir input fuel directory).visited ∨
        p ∈ (process_directory scandir input fuel directory).enqueued) →
      is_within_input_directory input p = true) ∧
    (∀ (fuel : Nat) (e : DirEntry) (rest : List DirEntry),
      is_within_input_directory input e.path = false →
      process_entries scandir input fuel (e :: rest) =
        process_entries scandir input fuel rest) := by
  have main : ∀ fuel : Nat,
      (∀ directory p : List String,
        (p ∈ (process_directory scandir input fuel directory).visited ∨
          p ∈ (process_directory scandir input fuel directory).enqueued) →
        is_within_input_directory input p = true) ∧
      (∀ (es : List DirEntry) (p : List String),
        (p ∈ (process_entries scandir input fuel es).visited ∨
          p ∈ (process_entries scandir input fuel es).enqueued) →
        is_within_input_directory input p = true) := by
    intro fuel
    induction fuel with
    | zero =>
      have hB : ∀ (es : List DirEntry) (p : List String),
          (p ∈ (process_entries scandir input 0 es).visited ∨
            p ∈ (process_entries scandir input 0 es).enqueued) →
          is_within_input_directory input p = true := by
        intro es
        induction es with
        | nil => intro p hp; simp [process_entries, ScanState.empty] at hp
        | cons e rest ihe =>
          intro p hp
          cases hw : is_within_input_directory input e.path with
          | false =>
            simp only [process_entries, hw, Bool.false_eq_true, if_false] at hp
            exact ihe p hp
          | true =>
            simp only [process_entries, hw, if_true] at hp
            by_cases hd : e.isDirE = true
            · simp only [hd, if_true, ScanState.merge, process_directory,
                ScanState.empty, List.nil_append] at hp
              exact ihe p hp
            · simp only [hd, Bool.false_eq_true, if_false] at hp
              by_cases hf : (e.isFileE && is_supported_image e.name) = true
              · simp only [hf, if_true, ScanState.merge, List.nil_append,
                  List.singleton_append, List.mem_cons] at hp
                rcases hp with hp | (hp | hp)
                · exact ihe p (Or.inl hp)
                · subst hp; exact hw
                · exact ihe p (Or.inr hp)
              · simp only [hf, Bool.false_eq_true, if_false] at hp
                exact ihe p hp
      refine ⟨?_, hB⟩
      intro d p hp
      simp [process_directory, ScanState.empty] at hp
    | succ fuel ih =>
      have hA : ∀ directory p : List String,
          (p ∈ (process_directory scandir input (fuel + 1) directory).visited ∨
            p ∈ (process_directory scandir input (fuel + 1) directory).enqueued) →
          is_within_input_directory input p = true := by
        intro d p hp
        cases hwd : is_within_input_directory input d with
        | false =>
          simp only [process_directory, hwd, Bool.false_eq_true, if_false] at hp
          simp [ScanState.empty] at hp
        | true =>
          simp only [process_directory, hwd, if_true] at hp
          cases hsc : scandir d with
          | none =>
            simp only [hsc] at hp
            rcases hp with hp | hp
            · simp only [List.mem_singleton] at hp
              subst hp; exact hwd
            · simp at hp
          | some entries =>
            simp only [hsc, ScanState.merge, List.singleton_append,
              List.nil_append, List.mem_cons] at hp
            rcases hp with (hp | hp) | hp
            · subst hp; exact hwd
            · exact (ih.2) entries p (Or.inl hp)
            · exact (ih.2) entries p (Or.inr hp)
      have hB : ∀ (es : List DirEntry) (p : List String),
          (p ∈ (process_entries scandir input (fuel + 1) es).visited ∨
            p ∈ (process_entries scandir input (fuel + 1) es).enqueued) →
          is_within_input_directory input p = true := by
        intro es
        induction es with
        | nil => intro p hp; simp [process_entries, ScanState.empty] at hp
        | cons e rest ihe =>
          intro p hp
          cases hw : is_within_input_directory input e.path with
          | false =>
            simp only [process_entries, hw, Bool.false_eq_true, if_false] at hp
            exact ihe p hp
          | true =>
            simp only [process_entries, hw, if_true] at hp
            by_cases hd : e.isDirE = true
            · simp only [hd, if_true, ScanState.merge, List.mem_append] at hp
              rcases hp with (hp | hp) | (hp | hp)
              · exact hA e.path p (Or.inl hp)
              · exact ihe p (Or.inl hp)
              · exact hA e.path p (Or.inr hp)
              · exact ihe p (Or.inr hp)
            · simp only [hd, Bool.false_eq_true, if_false] at hp
              by_cases hf : (e.isFileE && is_supported_image e.name) = true
              · simp only [hf, if_true, ScanState.merge, List.nil_append,
                  List.singleton_append, List.mem_cons] at hp
                rcases hp with hp | (hp | hp)
                · exact ihe p (Or.inl hp)
                · subst hp; exact hw
                · exact ihe p (Or.inr hp)
              · simp only [hf, Bool.false_eq_true, if_false] at hp
                exact ihe p hp
      exact ⟨hA, hB⟩
  refine ⟨fun fuel => (main fuel).1, ?_⟩
  intro fuel e rest hw
  simp only [process_entries, hw, Bool.false_eq_true, if_false]

/-- A directory-listing oracle for concrete runs: every directory reads
successfully and is empty. -/
def scanOracleEmpty : List String → Option (List DirEntry) := fun _ => some []

/-- A directory entry whose absolute path resolves outside the input root
used in the witness below, as a symlink or relative escape would produce. -/
def outsideEntry : DirEntry := ⟨["etc"], true, false, "etc"⟩

/-- Witness for C7: an entry outside the root ["root"] is skipped with
traversal continuing, and the root itself — the one path the concrete run
visits — is within the root. -/
theorem C7_traversal_containment_witness :
    is_within_input_directory ["root"] outsideEntry.path = false ∧
    process_entries scanOracleEmpty ["root"] 1 [outsideEntry] =
      process_entries scanOracleEmpty ["root"] 1 [] ∧
    is_within_input_directory ["root"] ["root"] = true :=
  ⟨by decide,
    (C7_traversal_containment scanOracleEmpty ["root"]).2 1 outsideEntry [] (by decide),
    (C7_traversal_containment scanOracleEmpty ["root"]).1 1 ["root"] ["root"]
      (Or.inl (by
        have h : is_within_input_directory ["root"] ["root"] = true := by decide
        simp [process_directory, process_entries, scanOracleEmpty, h,
          ScanState.merge, ScanState.empty]))⟩

end ImageSorter
